import Mathlib

/-!
Verification of the `ezo-ph-rs` pH-EZO sensor driver (Rust).

This file shallowly embeds the protocol layer of the crate:

* `src/command.rs` — the typed command set: per-command wire strings,
  post-write delays, and case-insensitive `from_str` parsers;
* `src/response.rs` — the response parsers (`CalibrationStatus`,
  `SensorReading`, `DeviceStatus`, ...);
* `src/lib.rs` — the `PhCommand` / `CommandOptions` table and the
  `CommandOptions::run` transaction loop (write with one retry, settle
  delay, read with one retry, status-byte dispatch);
* `src/errors.rs` — the `ErrorKind` taxonomy.

Modelling conventions:

* Rust `&str` / `String` values are embedded as `List Char` (`Str` below);
  `str::to_uppercase` is modelled by ASCII uppercasing, on which it agrees
  for the ASCII wire protocol handled here.
* Byte slicing `s.get(n..)` is modelled by `byteDrop`, which counts UTF-8
  bytes via `Char.utf8Size` and returns `none` exactly when `n` is not a
  character boundary — the case in which the source's `.unwrap()` panics.
  Parsers that perform such an `unwrap` therefore return
  `Option (Except ErrorKind α)`, with `none` modelling the panic.
* Rust `f64` values are embedded as exact rationals (`RustFloat` with
  infinity/NaN markers); `f64::from_str` is modelled by exact
  decimal-to-rational parsing, and `{:.prec$}` formatting by half-to-even
  rounding at `prec` decimal digits of the exact value.
* The I2C device is modelled by the outcomes it would hand each write /
  read attempt; `CommandOptions.run` returns its `Result` together with
  the ordered trace of bus events and console lines it produced.
-/

namespace EzoPh

/-- Strings are embedded as lists of characters. -/
abbrev Str := List Char

/-- Coerce a Lean string literal into the embedding's string type. -/
def str (s : String) : Str := s.data

/-- ASCII uppercasing of one character; models `str::to_uppercase`,
which agrees with this on ASCII input. -/
def toUpperAscii (c : Char) : Char :=
  if 97 ≤ c.toNat ∧ c.toNat ≤ 122 then Char.ofNat (c.toNat - 32) else c

/-- ASCII uppercasing of a string (`s.to_uppercase()` in the source). -/
def upper (s : Str) : Str := s.map toUpperAscii

/-- Models `str::get(n..)`: drop `n` UTF-8 bytes, returning `none` when
`n` does not land on a character boundary (the case where the source's
`.unwrap()` would panic). -/
def byteDrop : Str → Nat → Option Str
  | s, 0 => some s
  | [], _ + 1 => none
  | c :: cs, n + 1 =>
    if c.utf8Size ≤ n + 1 then byteDrop cs (n + 1 - c.utf8Size) else none

/-- Models `str::split(',')`: split on commas; always returns at least one
(possibly empty) field, like Rust's `split`. -/
def splitComma : Str → List Str
  | [] => [[]]
  | c :: rest =>
    if c = ',' then [] :: splitComma rest
    else
      match splitComma rest with
      | f :: fs => (c :: f) :: fs
      | [] => [[c]]

/-- The error taxonomy of `src/errors.rs` (`ErrorKind`). -/
inductive ErrorKind
  | CommandParse
  | InvalidReading
  | I2CRead
  | MalformedResponse
  | ResponseParse
  | PendingResponse
  | DeviceErrorResponse
  | NoDataExpectedResponse
deriving DecidableEq, Repr

/-- Decidable equality of `Except` results, used to evaluate concrete
parser outcomes. -/
instance {ε α : Type} [DecidableEq ε] [DecidableEq α] : DecidableEq (Except ε α) := fun a b =>
  match a, b with
  | .ok x, .ok y =>
    if h : x = y then isTrue (by rw [h]) else isFalse (by intro hh; cases hh; exact h rfl)
  | .error x, .error y =>
    if h : x = y then isTrue (by rw [h]) else isFalse (by intro hh; cases hh; exact h rfl)
  | .ok _, .error _ => isFalse (by intro hh; cases hh)
  | .error _, .ok _ => isFalse (by intro hh; cases hh)

/-- All characters of a string are single-byte (ASCII range) in UTF-8. -/
def allAscii (s : Str) : Bool := s.all fun c => c.utf8Size = 1

/-! ### Rust `f64` model: parsing and formatting

`f64` values are embedded exactly: finite values as rationals, plus the
infinity and NaN payloads `f64::from_str` can produce.  `from_str` is
modelled by exact decimal-to-rational parsing of Rust's grammar
(`[sign] (inf|infinity|nan | digits [. digits] [ (e|E) [sign] digits ])`,
case-insensitive specials); fixed-precision `{:.prec$}` formatting by
half-to-even rounding of the exact value.

Rationals are carried by `Q`, normalised `num/den` pairs with executable
arithmetic, so concrete protocol strings evaluate inside proofs. -/

/-- A rational number in normalised form (`den` positive, fraction in
lowest terms — every constructor below normalises). -/
structure Q where
  num : Int
  den : Nat
deriving DecidableEq, Repr

/-- Build a normalised rational from numerator and denominator
(denominator `0` yields `0`, as `mkRat` does). -/
def mkQ (n : Int) (d : Nat) : Q :=
  if d = 0 then ⟨0, 1⟩
  else
    let g := Nat.gcd n.natAbs d
    ⟨n / (g : Int), d / g⟩

def Q.ofNat (n : Nat) : Q := ⟨n, 1⟩

def Q.neg (q : Q) : Q := ⟨-q.num, q.den⟩

def Q.abs (q : Q) : Q := if q.num < 0 then q.neg else q

/-- `a ≤ b` by cross-multiplication (denominators are positive). -/
def Q.le (a b : Q) : Bool := a.num * (b.den : Int) ≤ b.num * (a.den : Int)

/-- `a < b` by cross-multiplication. -/
def Q.lt (a b : Q) : Bool := a.num * (b.den : Int) < b.num * (a.den : Int)

/-- Multiply by `10 ^ e`. -/
def Q.mulPow10 (q : Q) (e : Nat) : Q := mkQ (q.num * ((10 ^ e : Nat) : Int)) q.den

/-- Divide by `10 ^ e`. -/
def Q.divPow10 (q : Q) (e : Nat) : Q := mkQ q.num (q.den * 10 ^ e)

inductive RustFloat
  | finite (q : Q)
  | posInf
  | negInf
  | nan
deriving DecidableEq, Repr

/-- Numeric value of a string of ASCII digits (most significant first). -/
def digitsToNat (ds : Str) : Nat := ds.foldl (fun a c => a * 10 + (c.toNat - 48)) 0

/-- Models `f64::from_str` (Rust's `dec2flt` grammar), producing the exact
rational value of the decimal literal. -/
def parseF64 (s : Str) : Option RustFloat :=
  if s = [] then none
  else
    let neg := s.head? = some '-'
    let r := if s.head? = some '+' ∨ s.head? = some '-' then s.tail else s
    if upper r = str "INF" ∨ upper r = str "INFINITY" then
      some (if neg then .negInf else .posInf)
    else if upper r = str "NAN" then some .nan
    else
      let ip := r.takeWhile Char.isDigit
      let r1 := r.drop ip.length
      let fp :=
        match r1 with
        | '.' :: t => t.takeWhile Char.isDigit
        | _ => []
      let r2 :=
        match r1 with
        | '.' :: t => t.drop (t.takeWhile Char.isDigit).length
        | t => t
      if ip = [] ∧ fp = [] then none
      else
        let mant : Q :=
          mkQ (digitsToNat ip * 10 ^ fp.length + digitsToNat fp) (10 ^ fp.length)
        match r2 with
        | [] => some (.finite (if neg then mant.neg else mant))
        | e :: r3 =>
          if e = 'e' ∨ e = 'E' then
            let eneg := r3.head? = some '-'
            let r4 := if r3.head? = some '+' ∨ r3.head? = some '-' then r3.tail else r3
            let ed := r4.takeWhile Char.isDigit
            if ed = [] ∨ r4.drop ed.length ≠ [] then none
            else
              let q := if eneg then mant.divPow10 (digitsToNat ed)
                       else mant.mulPow10 (digitsToNat ed)
              some (.finite (if neg then q.neg else q))
          else none

/-- Round a rational to the nearest integer, ties to even — the rounding
Rust's fixed-precision float formatting uses.  Computed from the floor
`f` and the remainder `rem = num - f·den` (so the fraction is `rem/den`,
compared against `1/2` by cross-multiplication). -/
def roundHalfEven (q : Q) : Int :=
  let f := q.num.fdiv (q.den : Int)
  let rem := q.num - f * (q.den : Int)
  if 2 * rem < (q.den : Int) then f
  else if (q.den : Int) < 2 * rem then f + 1
  else if f % 2 = 0 then f else f + 1

/-- Decimal digit string of a natural number. -/
def natDigits (n : Nat) : Str := Nat.toDigits 10 n

/-- Models Rust's `{:.prec$}` formatting of a finite `f64`: exactly `prec`
digits after the decimal point (no point at all when `prec = 0`). -/
def fmtFixed (prec : Nat) (q : Q) : Str :=
  let n : Int := roundHalfEven (q.abs.mulPow10 prec)
  let ds0 := natDigits n.toNat
  let ds := if ds0.length < prec + 1 then
      List.replicate (prec + 1 - ds0.length) '0' ++ ds0 else ds0
  let ipart := ds.take (ds.length - prec)
  let fpart := ds.drop (ds.length - prec)
  (if q.num < 0 then ['-'] else []) ++ ipart ++ (if prec = 0 then [] else '.' :: fpart)

/-- `{:.prec$}` formatting lifted to all `f64` payloads. -/
def fmtFixedF (prec : Nat) : RustFloat → Str
  | .finite q => fmtFixed prec q
  | .posInf => str "inf"
  | .negInf => str "-inf"
  | .nan => str "NaN"

/-- Multiplicity of `p` in `n` together with the remaining cofactor,
with an explicit recursion bound (`n` itself always suffices). -/
def divAllAux (p : Nat) : Nat → Nat → Nat × Nat
  | 0, n => (0, n)
  | fuel + 1, n =>
    if 1 < p ∧ n ≠ 0 ∧ n % p = 0 then
      let r := divAllAux p fuel (n / p)
      (r.1 + 1, r.2)
    else (0, n)

/-- Multiplicity of `p` in `n` together with the remaining cofactor. -/
def divAll (p n : Nat) : Nat × Nat := divAllAux p n n

/-- Models Rust's default `{}` display of a finite `f64` — the shortest
decimal digit string denoting the value exactly.  A true `f64` is a dyadic
rational, so its decimal expansion terminates; on other rationals (which
no `f64` produces) the result is the empty string. -/
def fmtDefault (q : Q) : Str :=
  let a := (divAll 2 q.den).1
  let b := (divAll 5 (divAll 2 q.den).2).1
  let rest := (divAll 5 (divAll 2 q.den).2).2
  if rest = 1 then
    let k := max a b
    let m := (q.abs.mulPow10 k).num.toNat
    let ds0 := natDigits m
    let ds := if ds0.length < k + 1 then
        List.replicate (k + 1 - ds0.length) '0' ++ ds0 else ds0
    let ipart := ds.take (ds.length - k)
    let fpart := ds.drop (ds.length - k)
    (if q.num < 0 then ['-'] else []) ++ ipart ++ (if k = 0 then [] else '.' :: fpart)
  else []

/-- Models `u16::from_str`: optional `+`, one or more decimal digits, in
range. -/
def parseU16 (s : Str) : Option Nat :=
  let r := match s with
    | '+' :: t => t
    | t => t
  if r ≠ [] ∧ r.all Char.isDigit ∧ digitsToNat r < 65536 then some (digitsToNat r)
  else none

/-! ### `src/command.rs`: the typed command set

Each `define_command!` invocation in the source yields a command struct
with `get_command_string` and `get_delay`; each command additionally has a
hand-written case-insensitive `FromStr`.  Every `from_str` first
uppercases its input, so each is embedded as `fromUpper` (the body applied
to the already-uppercased string) composed with `upper`.  Parsers that
slice off a prefix via `get(n..).unwrap()` return
`Option (Except ErrorKind _)`, `none` modelling the `unwrap` panic. -/

/-- The baud-rate enumeration from the `ezo_common` dependency; `parse`
is its numeric value (`BpsRate::parse`), as exercised by this crate's
tests (`BAUD,300` … `BAUD,115200`). -/
inductive BpsRate
  | Bps300
  | Bps1200
  | Bps2400
  | Bps9600
  | Bps19200
  | Bps38400
  | Bps57600
  | Bps115200
deriving DecidableEq, Repr

def BpsRate.parse : BpsRate → Nat
  | .Bps300 => 300
  | .Bps1200 => 1200
  | .Bps2400 => 2400
  | .Bps9600 => 9600
  | .Bps19200 => 19200
  | .Bps38400 => 38400
  | .Bps57600 => 57600
  | .Bps115200 => 115200

/-- `Baud(BpsRate)`: wire string `BAUD,<rate>`. -/
def Baud.get_command_string (cmd : BpsRate) : Str := str "BAUD," ++ natDigits cmd.parse

def Baud.get_delay : Nat := 0

/-- The rate-token match of `Baud::from_str`. -/
def Baud.rateOf (f : Str) : Option BpsRate :=
  if f = str "300" then some .Bps300
  else if f = str "1200" then some .Bps1200
  else if f = str "2400" then some .Bps2400
  else if f = str "9600" then some .Bps9600
  else if f = str "19200" then some .Bps19200
  else if f = str "38400" then some .Bps38400
  else if f = str "57600" then some .Bps57600
  else if f = str "115200" then some .Bps115200
  else none

def Baud.fromUpper (supper : Str) : Option (Except ErrorKind BpsRate) :=
  if (str "BAUD,").isPrefixOf supper then
    match byteDrop supper 5 with
    | none => none
    | some rest =>
      some (match splitComma rest with
        | [] => .error .CommandParse
        | f :: fs =>
          match Baud.rateOf f with
          | some rate => if fs = [] then .ok rate else .error .CommandParse
          | none => .error .CommandParse)
  else some (.error .CommandParse)

def Baud.from_str (s : Str) : Option (Except ErrorKind BpsRate) := Baud.fromUpper (upper s)

/-- `CAL,MID,t` (2-decimal `f64`), delay 900 ms. -/
def CalibrationMid.get_command_string (cmd : RustFloat) : Str :=
  str "CAL,MID," ++ fmtFixedF 2 cmd

def CalibrationMid.get_delay : Nat := 900

def CalibrationMid.fromUpper (supper : Str) : Option (Except ErrorKind RustFloat) :=
  if (str "CAL,MID,").isPrefixOf supper then
    match byteDrop supper 8 with
    | none => none
    | some rest =>
      some (match splitComma rest with
        | [] => .error .CommandParse
        | f :: fs =>
          match parseF64 f with
          | some v => if fs = [] then .ok v else .error .CommandParse
          | none => .error .CommandParse)
  else some (.error .CommandParse)

def CalibrationMid.from_str (s : Str) : Option (Except ErrorKind RustFloat) :=
  CalibrationMid.fromUpper (upper s)

/-- `CAL,LOW,t` (2-decimal `f64`), delay 900 ms. -/
def CalibrationLow.get_command_string (cmd : RustFloat) : Str :=
  str "CAL,LOW," ++ fmtFixedF 2 cmd

def CalibrationLow.get_delay : Nat := 900

def CalibrationLow.fromUpper (supper : Str) : Option (Except ErrorKind RustFloat) :=
  if (str "CAL,LOW,").isPrefixOf supper then
    match byteDrop supper 8 with
    | none => none
    | some rest =>
      some (match splitComma rest with
        | [] => .error .CommandParse
        | f :: fs =>
          match parseF64 f with
          | some v => if fs = [] then .ok v else .error .CommandParse
          | none => .error .CommandParse)
  else some (.error .CommandParse)

def CalibrationLow.from_str (s : Str) : Option (Except ErrorKind RustFloat) :=
  CalibrationLow.fromUpper (upper s)

/-- `CAL,HIGH,t` (2-decimal `f64`), delay 900 ms. -/
def CalibrationHigh.get_command_string (cmd : RustFloat) : Str :=
  str "CAL,HIGH," ++ fmtFixedF 2 cmd

def CalibrationHigh.get_delay : Nat := 900

def CalibrationHigh.fromUpper (supper : Str) : Option (Except ErrorKind RustFloat) :=
  if (str "CAL,HIGH,").isPrefixOf supper then
    match byteDrop supper 9 with
    | none => none
    | some rest =>
      some (match splitComma rest with
        | [] => .error .CommandParse
        | f :: fs =>
          match parseF64 f with
          | some v => if fs = [] then .ok v else .error .CommandParse
          | none => .error .CommandParse)
  else some (.error .CommandParse)

def CalibrationHigh.from_str (s : Str) : Option (Except ErrorKind RustFloat) :=
  CalibrationHigh.fromUpper (upper s)

/-- `CAL,CLEAR`, delay 300 ms. -/
def CalibrationClear.get_command_string : Str := str "CAL,CLEAR"

def CalibrationClear.get_delay : Nat := 300

def CalibrationClear.fromUpper (supper : Str) : Except ErrorKind Unit :=
  if supper = str "CAL,CLEAR" then .ok () else .error .CommandParse

def CalibrationClear.from_str (s : Str) : Except ErrorKind Unit :=
  CalibrationClear.fromUpper (upper s)

/-- `CAL,?`, delay 300 ms. -/
def CalibrationState.get_command_string : Str := str "CAL,?"

def CalibrationState.get_delay : Nat := 300

def CalibrationState.fromUpper (supper : Str) : Except ErrorKind Unit :=
  if supper = str "CAL,?" then .ok () else .error .CommandParse

def CalibrationState.from_str (s : Str) : Except ErrorKind Unit :=
  CalibrationState.fromUpper (upper s)

/-- `EXPORT`, delay 300 ms. -/
def Export.get_command_string : Str := str "EXPORT"

def Export.get_delay : Nat := 300

def Export.fromUpper (supper : Str) : Except ErrorKind Unit :=
  if supper = str "EXPORT" then .ok () else .error .CommandParse

def Export.from_str (s : Str) : Except ErrorKind Unit := Export.fromUpper (upper s)

/-- `EXPORT,?`, delay 300 ms. -/
def ExportInfo.get_command_string : Str := str "EXPORT,?"

def ExportInfo.get_delay : Nat := 300

def ExportInfo.fromUpper (supper : Str) : Except ErrorKind Unit :=
  if supper = str "EXPORT,?" then .ok () else .error .CommandParse

def ExportInfo.from_str (s : Str) : Except ErrorKind Unit := ExportInfo.fromUpper (upper s)

/-- `IMPORT,<s>`: the constructor performs no validation — the carried
string is spliced into the wire string as-is. -/
def Import.get_command_string (cmd : Str) : Str := str "IMPORT," ++ cmd

def Import.get_delay : Nat := 300

/-- `Import::from_str`: the one place the 1–12 length bound is checked
(`Some(n) if n.len() > 0 && n.len() < 13`). -/
def Import.fromUpper (supper : Str) : Option (Except ErrorKind Str) :=
  if (str "IMPORT,").isPrefixOf supper then
    match byteDrop supper 7 with
    | none => none
    | some rest =>
      some (match splitComma rest with
        | [] => .error .CommandParse
        | f :: fs =>
          if 0 < f.length ∧ f.length < 13 then
            if fs = [] then .ok f else .error .CommandParse
          else .error .CommandParse)
  else some (.error .CommandParse)

def Import.from_str (s : Str) : Option (Except ErrorKind Str) := Import.fromUpper (upper s)

/-- `FACTORY`, delay 0. -/
def Factory.get_command_string : Str := str "FACTORY"

def Factory.get_delay : Nat := 0

def Factory.fromUpper (supper : Str) : Except ErrorKind Unit :=
  if supper = str "FACTORY" then .ok () else .error .CommandParse

def Factory.from_str (s : Str) : Except ErrorKind Unit := Factory.fromUpper (upper s)

/-- `F` (find / blink), delay 300 ms. -/
def Find.get_command_string : Str := str "F"

def Find.get_delay : Nat := 300

def Find.fromUpper (supper : Str) : Except ErrorKind Unit :=
  if supper = str "F" then .ok () else .error .CommandParse

def Find.from_str (s : Str) : Except ErrorKind Unit := Find.fromUpper (upper s)

/-- `I2C,<n>` (`u16` device address), delay 300 ms. -/
def DeviceAddress.get_command_string (cmd : Nat) : Str := str "I2C," ++ natDigits cmd

def DeviceAddress.get_delay : Nat := 300

def DeviceAddress.fromUpper (supper : Str) : Option (Except ErrorKind Nat) :=
  if (str "I2C,").isPrefixOf supper then
    match byteDrop supper 4 with
    | none => none
    | some rest =>
      some (match splitComma rest with
        | [] => .error .CommandParse
        | f :: fs =>
          match parseU16 f with
          | some v => if fs = [] then .ok v else .error .CommandParse
          | none => .error .CommandParse)
  else some (.error .CommandParse)

def DeviceAddress.from_str (s : Str) : Option (Except ErrorKind Nat) :=
  DeviceAddress.fromUpper (upper s)

/-- `I` (device information), delay 300 ms. -/
def DeviceInformation.get_command_string : Str := str "I"

def DeviceInformation.get_delay : Nat := 300

def DeviceInformation.fromUpper (supper : Str) : Except ErrorKind Unit :=
  if supper = str "I" then .ok () else .error .CommandParse

def DeviceInformation.from_str (s : Str) : Except ErrorKind Unit :=
  DeviceInformation.fromUpper (upper s)

/-- `L,1`, delay 300 ms. -/
def LedOn.get_command_string : Str := str "L,1"

def LedOn.get_delay : Nat := 300

def LedOn.fromUpper (supper : Str) : Except ErrorKind Unit :=
  if supper = str "L,1" then .ok () else .error .CommandParse

def LedOn.from_str (s : Str) : Except ErrorKind Unit := LedOn.fromUpper (upper s)

/-- `L,0`, delay 300 ms. -/
def LedOff.get_command_string : Str := str "L,0"

def LedOff.get_delay : Nat := 300

def LedOff.fromUpper (supper : Str) : Except ErrorKind Unit :=
  if supper = str "L,0" then .ok () else .error .CommandParse

def LedOff.from_str (s : Str) : Except ErrorKind Unit := LedOff.fromUpper (upper s)

/-- `L,?`, delay 300 ms. -/
def LedState.get_command_string : Str := str "L,?"

def LedState.get_delay : Nat := 300

def LedState.fromUpper (supper : Str) : Except ErrorKind Unit :=
  if supper = str "L,?" then .ok () else .error .CommandParse

def LedState.from_str (s : Str) : Except ErrorKind Unit := LedState.fromUpper (upper s)

/-- `PLOCK,1`, delay 300 ms. -/
def ProtocolLockEnable.get_command_string : Str := str "PLOCK,1"

def ProtocolLockEnable.get_delay : Nat := 300

def ProtocolLockEnable.fromUpper (supper : Str) : Except ErrorKind Unit :=
  if supper = str "PLOCK,1" then .ok () else .error .CommandParse

def ProtocolLockEnable.from_str (s : Str) : Except ErrorKind Unit :=
  ProtocolLockEnable.fromUpper (upper s)

/-- `PLOCK,0`, delay 300 ms. -/
def ProtocolLockDisable.get_command_string : Str := str "PLOCK,0"

def ProtocolLockDisable.get_delay : Nat := 300

def ProtocolLockDisable.fromUpper (supper : Str) : Except ErrorKind Unit :=
  if supper = str "PLOCK,0" then .ok () else .error .CommandParse

def ProtocolLockDisable.from_str (s : Str) : Except ErrorKind Unit :=
  ProtocolLockDisable.fromUpper (upper s)

/-- `PLOCK,?`, delay 300 ms. -/
def ProtocolLockState.get_command_string : Str := str "PLOCK,?"

def ProtocolLockState.get_delay : Nat := 300

def ProtocolLockState.fromUpper (supper : Str) : Except ErrorKind Unit :=
  if supper = str "PLOCK,?" then .ok () else .error .CommandParse

def ProtocolLockState.from_str (s : Str) : Except ErrorKind Unit :=
  ProtocolLockState.fromUpper (upper s)

/-- `R` (take reading), delay 900 ms. -/
def Reading.get_command_string : Str := str "R"

def Reading.get_delay : Nat := 900

def Reading.fromUpper (supper : Str) : Except ErrorKind Unit :=
  if supper = str "R" then .ok () else .error .CommandParse

def Reading.from_str (s : Str) : Except ErrorKind Unit := Reading.fromUpper (upper s)

/-- `SLEEP`, delay 0. -/
def Sleep.get_command_string : Str := str "SLEEP"

def Sleep.get_delay : Nat := 0

def Sleep.fromUpper (supper : Str) : Except ErrorKind Unit :=
  if supper = str "SLEEP" then .ok () else .error .CommandParse

def Sleep.from_str (s : Str) : Except ErrorKind Unit := Sleep.fromUpper (upper s)

/-- `SLOPE,?`, delay 300 ms. -/
def Slope.get_command_string : Str := str "SLOPE,?"

def Slope.get_delay : Nat := 300

def Slope.fromUpper (supper : Str) : Except ErrorKind Unit :=
  if supper = str "SLOPE,?" then .ok () else .error .CommandParse

def Slope.from_str (s : Str) : Except ErrorKind Unit := Slope.fromUpper (upper s)

/-- `STATUS`, delay 300 ms. -/
def Status.get_command_string : Str := str "STATUS"

def Status.get_delay : Nat := 300

def Status.fromUpper (supper : Str) : Except ErrorKind Unit :=
  if supper = str "STATUS" then .ok () else .error .CommandParse

def Status.from_str (s : Str) : Except ErrorKind Unit := Status.fromUpper (upper s)

/-- `T,<t>` (3-decimal `f64` temperature compensation), delay 300 ms. -/
def TemperatureCompensation.get_command_string (cmd : RustFloat) : Str :=
  str "T," ++ fmtFixedF 3 cmd

def TemperatureCompensation.get_delay : Nat := 300

def TemperatureCompensation.fromUpper (supper : Str) : Option (Except ErrorKind RustFloat) :=
  if (str "T,").isPrefixOf supper then
    match byteDrop supper 2 with
    | none => none
    | some rest =>
      some (match splitComma rest with
        | [] => .error .CommandParse
        | f :: fs =>
          match parseF64 f with
          | some v => if fs = [] then .ok v else .error .CommandParse
          | none => .error .CommandParse)
  else some (.error .CommandParse)

def TemperatureCompensation.from_str (s : Str) : Option (Except ErrorKind RustFloat) :=
  TemperatureCompensation.fromUpper (upper s)

/-- `T,?`, delay 300 ms. -/
def CompensatedTemperatureValue.get_command_string : Str := str "T,?"

def CompensatedTemperatureValue.get_delay : Nat := 300

def CompensatedTemperatureValue.fromUpper (supper : Str) : Except ErrorKind Unit :=
  if supper = str "T,?" then .ok () else .error .CommandParse

def CompensatedTemperatureValue.from_str (s : Str) : Except ErrorKind Unit :=
  CompensatedTemperatureValue.fromUpper (upper s)

/-! ### `src/response.rs`: the response parsers

These parse status-stripped ASCII payloads.  They do not uppercase their
input (the `?`-prefixed echo tokens are matched case-sensitively).  As
with the command parsers, functions whose source performs
`get(n..).unwrap()` return an `Option`, with `none` modelling the panic.
String lengths are modelled as character counts, which equal Rust's byte
counts on the ASCII payloads this protocol produces. -/

/-- Minimum possible pH reading (`PROBE_LOWER_LIMIT`). -/
def PROBE_LOWER_LIMIT : Q := Q.ofNat 0

/-- Maximum possible pH reading (`PROBE_UPPER_LIMIT`). -/
def PROBE_UPPER_LIMIT : Q := Q.ofNat 14

inductive CalibrationStatus
  | OnePoint
  | TwoPoint
  | ThreePoint
  | NotCalibrated
deriving DecidableEq, Repr

/-- The digit match inside `CalibrationStatus::parse`. -/
def CalibrationStatus.digitOf (f : Str) : Option CalibrationStatus :=
  if f = str "3" then some .ThreePoint
  else if f = str "2" then some .TwoPoint
  else if f = str "1" then some .OnePoint
  else if f = str "0" then some .NotCalibrated
  else none

/-- `CalibrationStatus::parse`: payload `?CAL,<n>`, `n ∈ {0,1,2,3}`,
nothing after. -/
def CalibrationStatus.parse (response : Str) : Option (Except ErrorKind CalibrationStatus) :=
  if (str "?CAL,").isPrefixOf response then
    match byteDrop response 5 with
    | none => none
    | some rest =>
      some (match splitComma rest with
        | [] => .error .ResponseParse
        | f :: fs =>
          match CalibrationStatus.digitOf f with
          | some c => if fs = [] then .ok c else .error .ResponseParse
          | none => .error .ResponseParse)
  else some (.error .ResponseParse)

inductive Exported
  | ExportString (s : Str)
  | Done
deriving DecidableEq, Repr

/-- `Exported::parse`: the literal `*DONE`, or a 1–12 character chunk. -/
def Exported.parse (response : Str) : Except ErrorKind Exported :=
  if (str "*").isPrefixOf response then
    if response = str "*DONE" then .ok .Done else .error .ResponseParse
  else if 1 ≤ response.length ∧ response.length < 13 then .ok (.ExportString response)
  else .error .ResponseParse

structure ExportedInfo where
  lines : Nat
  total_bytes : Nat
deriving DecidableEq, Repr

/-- `ExportedInfo::parse`: payload `?EXPORT,<lines:u16>,<bytes:u16>`. -/
def ExportedInfo.parse (response : Str) : Option (Except ErrorKind ExportedInfo) :=
  if (str "?EXPORT,").isPrefixOf response then
    match byteDrop response 8 with
    | none => none
    | some num_str =>
      some (match splitComma num_str with
        | [] => .error .ResponseParse
        | f1 :: rest1 =>
          match parseU16 f1 with
          | none => .error .ResponseParse
          | some lines =>
            match rest1 with
            | [] => .error .ResponseParse
            | f2 :: rest2 =>
              match parseU16 f2 with
              | none => .error .ResponseParse
              | some total_bytes =>
                if rest2 = [] then .ok ⟨lines, total_bytes⟩ else .error .ResponseParse)
  else some (.error .ResponseParse)

structure DeviceInfo where
  device : Str
  firmware : Str
deriving DecidableEq, Repr

/-- `DeviceInfo::parse`: payload `?I,<device>,<firmware>` — both fields
may be empty, exactly two fields. -/
def DeviceInfo.parse (response : Str) : Option (Except ErrorKind DeviceInfo) :=
  if (str "?I,").isPrefixOf response then
    match byteDrop response 3 with
    | none => none
    | some rest =>
      some (match splitComma rest with
        | [] => .error .ResponseParse
        | device :: rest1 =>
          match rest1 with
          | [] => .error .ResponseParse
          | firmware :: rest2 =>
            if rest2 = [] then .ok ⟨device, firmware⟩ else .error .ResponseParse)
  else some (.error .ResponseParse)

inductive LedStatus
  | Off
  | On
deriving DecidableEq, Repr

/-- `LedStatus::parse`: payload `?L,<0|1>`; the remainder is matched
whole, so any extra characters are an error. -/
def LedStatus.parse (response : Str) : Option (Except ErrorKind LedStatus) :=
  if (str "?L,").isPrefixOf response then
    match byteDrop response 3 with
    | none => none
    | some rest =>
      some (if rest = str "1" then .ok .On
            else if rest = str "0" then .ok .Off
            else .error .ResponseParse)
  else some (.error .ResponseParse)

inductive ProtocolLockStatus
  | Off
  | On
deriving DecidableEq, Repr

/-- `ProtocolLockStatus::parse`: payload `?PLOCK,<0|1>`, nothing after. -/
def ProtocolLockStatus.parse (response : Str) : Option (Except ErrorKind ProtocolLockStatus) :=
  if (str "?PLOCK,").isPrefixOf response then
    match byteDrop response 7 with
    | none => none
    | some rest =>
      some (match splitComma rest with
        | [] => .error .ResponseParse
        | f :: fs =>
          match (if f = str "1" then some ProtocolLockStatus.On
                 else if f = str "0" then some ProtocolLockStatus.Off else none) with
          | some st => if fs = [] then .ok st else .error .ResponseParse
          | none => .error .ResponseParse)
  else some (.error .ResponseParse)

structure SensorReading where
  val : RustFloat
deriving DecidableEq, Repr

/-- The range guard of `SensorReading::parse` (`v >= 0.0 && v <= 14.0`,
false on NaN and infinities, as for `f64` comparisons). -/
def SensorReading.inRange : RustFloat → Bool
  | .finite v => PROBE_LOWER_LIMIT.le v && v.le PROBE_UPPER_LIMIT
  | _ => false

/-- `SensorReading::parse`: parse the whole payload as `f64`; a value
outside `[0.0, 14.0]` is an `InvalidReading`, a non-number a
`ResponseParse`. -/
def SensorReading.parse (response : Str) : Except ErrorKind SensorReading :=
  match parseF64 response with
  | none => .error .ResponseParse
  | some v => if SensorReading.inRange v then .ok ⟨v⟩ else .error .InvalidReading

structure ProbeSlope where
  acid_end : RustFloat
  base_end : RustFloat
deriving DecidableEq, Repr

/-- `ProbeSlope::parse`: payload `?SLOPE,<acid_f64>,<base_f64>`. -/
def ProbeSlope.parse (response : Str) : Option (Except ErrorKind ProbeSlope) :=
  if (str "?SLOPE,").isPrefixOf response then
    match byteDrop response 7 with
    | none => none
    | some num_str =>
      some (match splitComma num_str with
        | [] => .error .ResponseParse
        | f1 :: rest1 =>
          match parseF64 f1 with
          | none => .error .ResponseParse
          | some acid_end =>
            match rest1 with
            | [] => .error .ResponseParse
            | f2 :: rest2 =>
              match parseF64 f2 with
              | none => .error .ResponseParse
              | some base_end =>
                if rest2 = [] then .ok ⟨acid_end, base_end⟩ else .error .ResponseParse)
  else some (.error .ResponseParse)

inductive RestartReason
  | PoweredOff
  | SoftwareReset
  | BrownOut
  | Watchdog
  | Unknown
deriving DecidableEq, Repr

/-- The reason-code match inside `DeviceStatus::parse`. -/
def RestartReason.ofField (f : Str) : Option RestartReason :=
  if f = str "P" then some .PoweredOff
  else if f = str "S" then some .SoftwareReset
  else if f = str "B" then some .BrownOut
  else if f = str "W" then some .Watchdog
  else if f = str "U" then some .Unknown
  else none

structure DeviceStatus where
  restart_reason : RestartReason
  vcc_voltage : RustFloat
deriving DecidableEq, Repr

/-- `DeviceStatus::parse`: payload `?STATUS,<P|S|B|W|U>,<voltage_f64>`. -/
def DeviceStatus.parse (response : Str) : Option (Except ErrorKind DeviceStatus) :=
  if (str "?STATUS,").isPrefixOf response then
    match byteDrop response 8 with
    | none => none
    | some rest =>
      some (match splitComma rest with
        | [] => .error .ResponseParse
        | f1 :: rest1 =>
          match RestartReason.ofField f1 with
          | none => .error .ResponseParse
          | some restart_reason =>
            match rest1 with
            | [] => .error .ResponseParse
            | f2 :: rest2 =>
              match parseF64 f2 with
              | none => .error .ResponseParse
              | some voltage =>
                if rest2 = [] then .ok ⟨restart_reason, voltage⟩
                else .error .ResponseParse)
  else some (.error .ResponseParse)

structure CompensationValue where
  val : RustFloat
deriving DecidableEq, Repr

/-- `CompensationValue::parse`: payload `?T,<f64>` — the whole remainder
is parsed as one float, so a trailing comma field fails the float parse. -/
def CompensationValue.parse (response : Str) : Option (Except ErrorKind CompensationValue) :=
  if (str "?T,").isPrefixOf response then
    match byteDrop response 3 with
    | none => none
    | some rest =>
      some (match parseF64 rest with
        | none => .error .ResponseParse
        | some v => .ok ⟨v⟩)
  else some (.error .ResponseParse)

/-! ### `src/lib.rs`: the `PhCommand` table and the transaction loop

`lib.rs` carries a second, older command table: `PhCommand` variants are
encoded by `PhCommand::build` into `CommandOptions` (wire string with an
explicit trailing NUL, optional delay, optional expected-response tag),
and `CommandOptions::run` performs the bus transaction: write the command
(one retry after a 300 ms sleep), sleep the settle delay, and — when a
response is expected — read a 401-byte buffer (one retry after a 300 ms
sleep) and dispatch on its leading status byte. -/

/-- Maximum ascii-character response size + 2 (`MAX_RESPONSE_LENGTH`). -/
def MAX_RESPONSE_LENGTH : Nat := 401

/-- Is a byte a UTF-8 continuation byte? -/
def isCont (b : Nat) : Bool := 0x80 ≤ b ∧ b ≤ 0xBF

/-- Models `String::from_utf8`: strict UTF-8 validation (rejecting
overlong forms, surrogates and out-of-range values) and decoding. -/
def utf8Decode? : List Nat → Option Str
  | [] => some []
  | b :: r =>
    if b ≤ 0x7F then (utf8Decode? r).map (fun cs => Char.ofNat b :: cs)
    else if 0xC2 ≤ b ∧ b ≤ 0xDF then
      match r with
      | b2 :: r2 =>
        if isCont b2 then
          (utf8Decode? r2).map (fun cs =>
            Char.ofNat ((b - 0xC0) * 0x40 + (b2 - 0x80)) :: cs)
        else none
      | [] => none
    else if 0xE0 ≤ b ∧ b ≤ 0xEF then
      match r with
      | b2 :: b3 :: r3 =>
        let lo2 := if b = 0xE0 then 0xA0 else 0x80
        let hi2 := if b = 0xED then 0x9F else 0xBF
        if (lo2 ≤ b2 ∧ b2 ≤ hi2) ∧ isCont b3 then
          (utf8Decode? r3).map (fun cs =>
            Char.ofNat ((b - 0xE0) * 0x1000 + (b2 - 0x80) * 0x40 + (b3 - 0x80)) :: cs)
        else none
      | _ => none
    else if 0xF0 ≤ b ∧ b ≤ 0xF4 then
      match r with
      | b2 :: b3 :: b4 :: r4 =>
        let lo2 := if b = 0xF0 then 0x90 else 0x80
        let hi2 := if b = 0xF4 then 0x8F else 0xBF
        if (lo2 ≤ b2 ∧ b2 ≤ hi2) ∧ isCont b3 ∧ isCont b4 then
          (utf8Decode? r4).map (fun cs =>
            Char.ofNat ((b - 0xF0) * 0x40000 + (b2 - 0x80) * 0x1000 +
              (b3 - 0x80) * 0x40 + (b4 - 0x80)) :: cs)
        else none
      | _ => none
    else none
termination_by l => l.length
decreasing_by all_goals (simp_wf; try omega)

/-- The expected-response tags of `lib.rs` (`CommandResponse`). -/
inductive CommandResponse
  | Ack
  | CalibrationState
  | CompensationValue
  | DeviceInformation
  | Export
  | ExportInfo
  | LedState
  | ProtocolLockState
  | Reading
  | Slope
  | Status
deriving DecidableEq, Repr

/-- `CommandOptions`: wire string, optional settle delay, optional
expected-response tag. -/
structure CommandOptions where
  command : Str
  delay : Option Nat
  response : Option CommandResponse
deriving DecidableEq, Repr

/-- The NUL terminator appended by every `PhCommand::build` arm. -/
def nul : Char := Char.ofNat 0

/-- The command variants of `lib.rs` (`PhCommand`). -/
inductive PhCommand
  | Baud (rate : BpsRate)
  | CalibrationClear
  | CalibrationMid (cal : RustFloat)
  | CalibrationLow (cal : RustFloat)
  | CalibrationHigh (cal : RustFloat)
  | CalibrationState
  | Export
  | ExportInfo
  | Import (calib : Str)
  | Factory
  | Find
  | DeviceInformation
  | DeviceAddress (addr : Nat)
  | LedOn
  | LedOff
  | LedState
  | ProtocolLockDisable
  | ProtocolLockEnable
  | ProtocolLockState
  | Reading
  | Sleep
  | Slope
  | Status
  | TemperatureCompensation (temp : RustFloat)
  | TemperatureCompensationValue
deriving DecidableEq, Repr

/-- Rust's default `{}` display lifted to all `f64` payloads. -/
def fmtDefaultF : RustFloat → Str
  | .finite q => fmtDefault q
  | .posInf => str "inf"
  | .negInf => str "-inf"
  | .nan => str "NaN"

/-- `PhCommand::build` (`impl I2cCommand for PhCommand`): the wire string
(NUL-terminated), delay and response tag of each variant.  Note that the
temperature-compensation arm formats with the *default* float display
(`format!("T,{}\0", temp)`), and the find arm expects an `Ack`. -/
def PhCommand.build : PhCommand → CommandOptions
  | .Baud rate => ⟨str "Baud," ++ natDigits rate.parse ++ [nul], none, none⟩
  | .CalibrationMid cal => ⟨str "Cal,mid," ++ fmtFixedF 2 cal ++ [nul], some 900, some .Ack⟩
  | .CalibrationLow cal => ⟨str "Cal,low," ++ fmtFixedF 2 cal ++ [nul], some 900, some .Ack⟩
  | .CalibrationHigh cal => ⟨str "Cal,high," ++ fmtFixedF 2 cal ++ [nul], some 900, some .Ack⟩
  | .CalibrationClear => ⟨str "Cal,clear\x00", some 300, some .Ack⟩
  | .CalibrationState => ⟨str "Cal,?\x00", some 300, some .CalibrationState⟩
  | .Export => ⟨str "Export\x00", some 300, some .Export⟩
  | .ExportInfo => ⟨str "Export,?\x00", some 300, some .ExportInfo⟩
  | .Import calib => ⟨str "Import," ++ calib ++ [nul], some 300, none⟩
  | .Factory => ⟨str "Factory\x00", none, none⟩
  | .Find => ⟨str "F\x00", some 300, some .Ack⟩
  | .DeviceInformation => ⟨str "I\x00", some 300, some .DeviceInformation⟩
  | .DeviceAddress addr => ⟨str "I2C," ++ natDigits addr ++ [nul], some 300, none⟩
  | .LedOn => ⟨str "L,1\x00", some 300, some .Ack⟩
  | .LedOff => ⟨str "L,0\x00", some 300, some .Ack⟩
  | .LedState => ⟨str "L,?\x00", some 300, some .LedState⟩
  | .ProtocolLockEnable => ⟨str "Plock,1\x00", some 300, some .Ack⟩
  | .ProtocolLockDisable => ⟨str "Plock,0\x00", some 300, some .Ack⟩
  | .ProtocolLockState => ⟨str "Plock,?\x00", some 300, some .ProtocolLockState⟩
  | .Reading => ⟨str "R\x00", some 900, some .Reading⟩
  | .Sleep => ⟨str "Sleep\x00", none, none⟩
  | .Slope => ⟨str "Slope,?\x00", some 300, some .Slope⟩
  | .Status => ⟨str "Status\x00", some 300, some .Status⟩
  | .TemperatureCompensation temp => ⟨str "T," ++ fmtDefaultF temp ++ [nul], some 300, some .Ack⟩
  | .TemperatureCompensationValue => ⟨str "T,?\x00", some 300, some .CompensationValue⟩

/-- Bus events of one `CommandOptions::run` transaction, in order. -/
inductive Event
  | write
  | sleepMs (ms : Nat)
  | read
deriving DecidableEq, Repr

/-- The failure modes of `CommandOptions::run` (its `chain_err` sites). -/
inductive RunError
  | commandNotSent
  | readFromDevice
  | dataNotReadable
deriving DecidableEq, Repr

/-- Outcome of one `CommandOptions::run` call: the returned `Result`, the
ordered bus events, and the console lines it printed. -/
structure RunOut where
  result : Except RunError Unit
  events : List Event
  printed : List Str
deriving DecidableEq, Repr

/-- The console line `run` prints for a non-success status byte. -/
def statusMsg (st : Nat) : Str :=
  if st = 255 then str "No data expected."
  else if st = 254 then str "Pending"
  else if st = 2 then str "Error"
  else str "NO RESPONSE"

/-- `CommandOptions::run`, parameterised by the outcome the device gives
each I/O attempt: `w1`/`w2` are the success of the first and (if needed)
retried write; `r1`/`r2` give the buffer filled by the first and retried
read (`none` = I/O error).  The write is attempted, retried once after a
300 ms sleep, and aborts on double failure; then the settle delay is
slept; then, when a response is expected, the read likewise gets one
retry; finally the leading status byte is dispatched: `1` decodes the
payload (up to the first NUL, top bit masked; without a NUL the whole
rest must be valid UTF-8), while `255`, `254`, `2` and every other value
only print a console line — the function still returns `Ok(())`. -/
def CommandOptions.run (opts : CommandOptions) (w1 w2 : Bool)
    (r1 r2 : Option (List Nat)) : RunOut :=
  let header := [str "COMMAND: " ++ opts.command]
  if w1 = false ∧ w2 = false then
    ⟨.error .commandNotSent, [.write, .sleepMs 300, .write], header⟩
  else
    let wTrace := if w1 then [Event.write] else [.write, .sleepMs 300, .write]
    let dTrace := match opts.delay with
      | some d => [Event.sleepMs d]
      | none => []
    match opts.response with
    | none => ⟨.ok (), wTrace ++ dTrace, header ++ [str ""]⟩
    | some _ =>
      match r1, r2 with
      | none, none =>
        ⟨.error .readFromDevice, wTrace ++ dTrace ++ [.read, .sleepMs 300, .read], header⟩
      | _, _ =>
        let buf := match r1 with
          | some b => b
          | none => r2.getD []
        let rTrace := if r1.isSome then [Event.read] else [.read, .sleepMs 300, .read]
        let evs := wTrace ++ dTrace ++ rTrace
        match buf.headD 0 with
        | 255 => ⟨.ok (), evs, header ++ [statusMsg 255, str ""]⟩
        | 254 => ⟨.ok (), evs, header ++ [statusMsg 254, str ""]⟩
        | 2 => ⟨.ok (), evs, header ++ [statusMsg 2, str ""]⟩
        | 1 =>
          match buf.findIdx? (· = 0) with
          | some eol =>
            let data := ((buf.drop 1).take (eol - 1)).map fun b => Char.ofNat (b % 128)
            ⟨.ok (), evs, header ++ [str "RESPONSE: " ++ data, str ""]⟩
          | none =>
            match utf8Decode? (buf.drop 1) with
            | some data => ⟨.ok (), evs, header ++ [str "RESPONSE: " ++ data, str ""]⟩
            | none => ⟨.error .dataNotReadable, evs, header⟩
        | st => ⟨.ok (), evs, header ++ [statusMsg st, str ""]⟩

/-! ### Derived trace shapes of `CommandOptions::run`

Spec-side closed forms used to state the retry behaviour. -/

/-- Bus events of the write phase: one write, or write / 300 ms sleep /
retried write. -/
def writeTrace (w1 : Bool) : List Event :=
  if w1 then [Event.write] else [.write, .sleepMs 300, .write]

/-- Bus events of the settle-delay phase. -/
def delayTrace : Option Nat → List Event
  | some d => [Event.sleepMs d]
  | none => []

/-- Bus events of the read phase: nothing when no response is expected;
otherwise one read, or read / 300 ms sleep / retried read. -/
def readTrace (resp : Option CommandResponse) (r1 : Option (List Nat)) : List Event :=
  match resp with
  | none => []
  | some _ => if r1.isSome then [Event.read] else [.read, .sleepMs 300, .read]

/-! ### Lemmas about the string primitives -/

theorem char_ofNat_toNat {m : Nat} (h : m < 55296) : (Char.ofNat m).toNat = m := by
  have hv : Nat.isValidChar m := Or.inl h
  unfold Char.ofNat
  simp only [hv, dif_pos]
  rfl

theorem toUpperAscii_idem (c : Char) : toUpperAscii (toUpperAscii c) = toUpperAscii c := by
  unfold toUpperAscii
  by_cases h : 97 ≤ c.toNat ∧ c.toNat ≤ 122
  · simp only [h, if_true]
    have hval : (Char.ofNat (c.toNat - 32)).toNat = c.toNat - 32 :=
      char_ofNat_toNat (by omega)
    have hno : ¬ (97 ≤ (Char.ofNat (c.toNat - 32)).toNat ∧
        (Char.ofNat (c.toNat - 32)).toNat ≤ 122) := by
      rw [hval]; omega
    simp [hno]
  · simp [h]

theorem upper_idem (s : Str) : upper (upper s) = upper s := by
  unfold upper
  rw [List.map_map]
  exact List.map_congr_left fun c _ => toUpperAscii_idem c

theorem upper_append (s t : Str) : upper (s ++ t) = upper s ++ upper t :=
  List.map_append _ s t

theorem upper_length (s : Str) : (upper s).length = s.length := List.length_map s _

/-- `splitComma` never returns the empty list of fields. -/
theorem splitComma_ne_nil (s : Str) : splitComma s ≠ [] := by
  cases s with
  | nil => simp [splitComma]
  | cons c rest =>
    unfold splitComma
    by_cases h : c = ','
    · simp [h]
    · simp only [h, if_false]
      cases hr : splitComma rest with
      | nil => simp
      | cons f fs => simp

/-- A single-field split means the whole input was that field. -/
theorem splitComma_singleton {s f : Str} (h : splitComma s = [f]) : s = f := by
  induction s generalizing f with
  | nil => simp [splitComma] at h; simp [h]
  | cons c rest ih =>
    unfold splitComma at h
    by_cases hc : c = ','
    · simp only [hc, if_true] at h
      have h2 : splitComma rest = [] := (List.cons_eq_cons.mp h).2
      exact absurd h2 (splitComma_ne_nil rest)
    · simp only [hc, if_false] at h
      cases hr : splitComma rest with
      | nil => exact absurd hr (splitComma_ne_nil rest)
      | cons g gs =>
        rw [hr] at h
        have h1 : c :: g = f := (List.cons_eq_cons.mp h).1
        have h2 : gs = [] := (List.cons_eq_cons.mp h).2
        subst h2
        rw [← h1, ih hr]

/-- The split of a comma-free string is the single field equal to it. -/
theorem splitComma_of_no_comma {s : Str} (h : ',' ∉ s) : splitComma s = [s] := by
  induction s with
  | nil => simp [splitComma]
  | cons c rest ih =>
    have hc : c ≠ ',' := fun hc => h (hc ▸ List.mem_cons_self c rest)
    have hrest : ',' ∉ rest := fun hm => h (List.mem_cons_of_mem c hm)
    unfold splitComma
    simp [hc, ih hrest]

/-- Dropping the byte length of an ASCII prefix always succeeds and yields
the suffix: the `.unwrap()` after a successful `starts_with` check cannot
panic. -/
theorem byteDrop_append {p : Str} (t : Str) (h : allAscii p = true) :
    byteDrop (p ++ t) p.length = some t := by
  induction p with
  | nil => simp [byteDrop]
  | cons c cs ih =>
    have hc : c.utf8Size = 1 := by
      have := (List.all_eq_true.mp h) c (List.mem_cons_self c cs)
      simpa using this
    have hcs : allAscii cs = true := by
      apply List.all_eq_true.mpr
      intro x hx
      exact (List.all_eq_true.mp h) x (List.mem_cons_of_mem c hx)
    simp only [List.cons_append, List.length_cons, byteDrop, hc]
    have hle : 1 ≤ cs.length + 1 := by omega
    simp only [hle, if_pos]
    simpa using ih hcs

/-- A successful `isPrefixOf` check exposes the suffix. -/
theorem exists_append_of_isPrefixOf {p s : Str} (h : p.isPrefixOf s = true) :
    ∃ t, s = p ++ t := by
  obtain ⟨t, ht⟩ := List.isPrefixOf_iff_prefix.mp h
  exact ⟨t, ht.symm⟩

/-- The common guard shape of the parsers: an ASCII-prefix check followed
by a byte-slice whose only `none` (panic) case is unreachable, so the
whole expression always produces a value. -/
theorem guard_isSome {α : Type} (p : Str) (n : Nat) (u : Str) (k : Str → α) (e : α)
    (hp : allAscii p = true) (hn : p.length = n) :
    (if p.isPrefixOf u then
       match byteDrop u n with
       | none => none
       | some rest => some (k rest)
     else some e).isSome = true := by
  by_cases h : p.isPrefixOf u
  · obtain ⟨t, rfl⟩ := exists_append_of_isPrefixOf h
    have hbd : byteDrop (p ++ t) n = some t := by rw [← hn]; exact byteDrop_append t hp
    rw [if_pos h, hbd]
    rfl
  · rw [if_neg h]
    rfl

/-! ### Lemmas about `CommandOptions::run` -/

/-- When both write attempts fail, `run` aborts with the write error after
exactly write / sleep 300 / write. -/
theorem run_write_fail (opts : CommandOptions) (r1 r2 : Option (List Nat)) :
    CommandOptions.run opts false false r1 r2 =
      ⟨.error .commandNotSent, [.write, .sleepMs 300, .write],
       [str "COMMAND: " ++ opts.command]⟩ := by
  unfold CommandOptions.run
  simp

/-- When some write attempt succeeds, the bus events of `run` are the
write trace, the delay trace, and the read trace, in that order. -/
theorem run_events (opts : CommandOptions) (w1 w2 : Bool) (r1 r2 : Option (List Nat))
    (hw : w1 = true ∨ w2 = true) :
    (CommandOptions.run opts w1 w2 r1 r2).events =
      writeTrace w1 ++ delayTrace opts.delay ++ readTrace opts.response r1 := by
  unfold CommandOptions.run
  have hcond : ¬(w1 = false ∧ w2 = false) := by
    rcases hw with h | h <;> simp [h]
  rw [if_neg hcond]
  cases hresp : opts.response with
  | none => simp [writeTrace, delayTrace, readTrace]
  | some resp =>
    cases r1 with
    | none =>
      cases r2 with
      | none => simp [writeTrace, delayTrace, readTrace]
      | some buf2 =>
        simp only [writeTrace, delayTrace, readTrace, Option.isSome]
        split <;> (try split) <;> (try split) <;> simp
    | some buf =>
      cases r2 with
      | none =>
        simp only [writeTrace, delayTrace, readTrace, Option.isSome]
        split <;> (try split) <;> (try split) <;> simp
      | some buf2 =>
        simp only [writeTrace, delayTrace, readTrace, Option.isSome]
        split <;> (try split) <;> (try split) <;> simp

/-- When both read attempts fail, `run` surfaces the read error after a
read / sleep 300 / retried read. -/
theorem run_read_fail (opts : CommandOptions) (w1 w2 : Bool) (resp : CommandResponse)
    (hw : w1 = true ∨ w2 = true) (hresp : opts.response = some resp) :
    CommandOptions.run opts w1 w2 none none =
      ⟨.error .readFromDevice,
       writeTrace w1 ++ delayTrace opts.delay ++ [.read, .sleepMs 300, .read],
       [str "COMMAND: " ++ opts.command]⟩ := by
  unfold CommandOptions.run
  have hcond : ¬(w1 = false ∧ w2 = false) := by
    rcases hw with h | h <;> simp [h]
  rw [if_neg hcond, hresp]
  simp [writeTrace, delayTrace]

/-- When the first read succeeds with a status byte other than `1`, `run`
returns `Ok(())` and records only the console message for that status —
the status is not surfaced in the result. -/
theorem run_status_not1 (opts : CommandOptions) (w1 w2 : Bool) (r2 : Option (List Nat))
    (buf : List Nat) (resp : CommandResponse)
    (hw : w1 = true ∨ w2 = true) (hresp : opts.response = some resp)
    (hst : buf.headD 0 ≠ 1) :
    CommandOptions.run opts w1 w2 (some buf) r2 =
      ⟨.ok (), writeTrace w1 ++ delayTrace opts.delay ++ [.read],
       [str "COMMAND: " ++ opts.command, statusMsg (buf.headD 0), str ""]⟩ := by
  unfold CommandOptions.run
  have hcond : ¬(w1 = false ∧ w2 = false) := by
    rcases hw with h | h <;> simp [h]
  rw [if_neg hcond, hresp]
  cases r2 with
  | none =>
    simp only [Option.isSome]
    split
    · next heq => rw [← heq]; simp [writeTrace, delayTrace, statusMsg, heq]
    · next heq => rw [← heq]; simp [writeTrace, delayTrace, statusMsg, heq]
    · next heq => rw [← heq]; simp [writeTrace, delayTrace, statusMsg, heq]
    · next heq => exact absurd heq hst
    · simp_all [writeTrace, delayTrace, statusMsg]
  | some buf2 =>
    simp only [Option.isSome]
    split
    · next heq => rw [← heq]; simp [writeTrace, delayTrace, statusMsg, heq]
    · next heq => rw [← heq]; simp [writeTrace, delayTrace, statusMsg, heq]
    · next heq => rw [← heq]; simp [writeTrace, delayTrace, statusMsg, heq]
    · next heq => exact absurd heq hst
    · simp_all [writeTrace, delayTrace, statusMsg]

/-- Write attempts in the write trace: one, or two when retried. -/
theorem count_writeTrace_write (w1 : Bool) :
    (writeTrace w1).count .write = if w1 then 1 else 2 := by
  cases w1 <;> decide

theorem count_writeTrace_read (w1 : Bool) : (writeTrace w1).count .read = 0 := by
  cases w1 <;> decide

theorem count_delayTrace_write (d : Option Nat) : (delayTrace d).count .write = 0 := by
  cases d <;> rfl

theorem count_delayTrace_read (d : Option Nat) : (delayTrace d).count .read = 0 := by
  cases d <;> rfl

theorem count_readTrace_write (resp : Option CommandResponse) (r1 : Option (List Nat)) :
    (readTrace resp r1).count .write = 0 := by
  cases resp <;> cases r1 <;> rfl

/-- Read attempts in the read trace: none without an expected response,
one on first-read success, two otherwise. -/
theorem count_readTrace_read (resp : Option CommandResponse) (r1 : Option (List Nat)) :
    (readTrace resp r1).count .read =
      if resp.isSome then (if r1.isSome then 1 else 2) else 0 := by
  cases resp <;> cases r1 <;> rfl

/-! ### Claim theorems -/

/-- C3, counterexample: the cited `PhCommand::build` encoder does NOT
render the temperature-compensation parameter with 3 decimals — at
`t = 19.5` it produces the wire string `T,19.5\0` (default float display
plus NUL), not `T,` followed by the 3-decimal rendering `19.500`. -/
theorem C3_counterexample :
    (PhCommand.build (.TemperatureCompensation (.finite (mkQ 39 2)))).command =
      str "T,19.5\x00" ∧
    (PhCommand.build (.TemperatureCompensation (.finite (mkQ 39 2)))).command ≠
      str "T," ++ fmtFixed 3 (mkQ 39 2) := by
  decide

/-- C3, amended: the `Command`-trait encoder of `command.rs` renders the
`T` command with exactly 3 decimals (`T,19.500` at 19.5) and delay
300 ms; the `PhCommand::build` encoder of `lib.rs` instead renders the
parameter with the default float display and a NUL terminator
(`T,19.5\0` at 19.5), also with delay 300 ms. -/
theorem C3_amended :
    (∀ t : Q, TemperatureCompensation.get_command_string (.finite t) =
      str "T," ++ fmtFixed 3 t) ∧
    TemperatureCompensation.get_delay = 300 ∧
    TemperatureCompensation.get_command_string (.finite (mkQ 39 2)) = str "T,19.500" ∧
    (∀ t : Q, (PhCommand.build (.TemperatureCompensation (.finite t))).command =
      str "T," ++ fmtDefault t ++ [nul]) ∧
    (PhCommand.build (.TemperatureCompensation (.finite (mkQ 39 2)))).delay = some 300 := by
  refine ⟨fun t => rfl, rfl, by decide, fun t => ?_, rfl⟩
  show str "T," ++ fmtDefault t ++ [nul] = str "T," ++ fmtDefault t ++ [nul]
  rfl

/-- C4, counterexample: in the cited `PhCommand::build` table the find
command's expected-response tag is `Some(Ack)`, not none, and its wire
string carries a trailing NUL. -/
theorem C4_counterexample :
    (PhCommand.build .Find).response = some CommandResponse.Ack ∧
    (PhCommand.build .Find).response ≠ none ∧
    (PhCommand.build .Find).command = str "F\x00" := by
  decide

/-- C4, amended: in the `command.rs` table the find (blink) command
encodes to wire string `F` with a 300 ms delay (and no response parser);
in the `lib.rs` `PhCommand::build` table it encodes to `F\0` with a
300 ms delay and expected-response tag `Ack`. -/
theorem C4_amended :
    Find.get_command_string = str "F" ∧
    Find.get_delay = 300 ∧
    PhCommand.build .Find =
      ⟨str "F\x00", some 300, some CommandResponse.Ack⟩ := by
  decide

/-- C6: decoding the encoding is the identity for every round-trippable
command variant — each of the 18 parameterless commands, and `Baud` at
each of its eight rates, parses its own canonical wire string back to
itself. -/
theorem C6_roundtrip :
    (∀ r : BpsRate, Baud.from_str (Baud.get_command_string r) = some (.ok r)) ∧
    CalibrationClear.from_str CalibrationClear.get_command_string = .ok () ∧
    CalibrationState.from_str CalibrationState.get_command_string = .ok () ∧
    Export.from_str Export.get_command_string = .ok () ∧
    ExportInfo.from_str ExportInfo.get_command_string = .ok () ∧
    Factory.from_str Factory.get_command_string = .ok () ∧
    Find.from_str Find.get_command_string = .ok () ∧
    DeviceInformation.from_str DeviceInformation.get_command_string = .ok () ∧
    LedOn.from_str LedOn.get_command_string = .ok () ∧
    LedOff.from_str LedOff.get_command_string = .ok () ∧
    LedState.from_str LedState.get_command_string = .ok () ∧
    ProtocolLockEnable.from_str ProtocolLockEnable.get_command_string = .ok () ∧
    ProtocolLockDisable.from_str ProtocolLockDisable.get_command_string = .ok () ∧
    ProtocolLockState.from_str ProtocolLockState.get_command_string = .ok () ∧
    Reading.from_str Reading.get_command_string = .ok () ∧
    Sleep.from_str Sleep.get_command_string = .ok () ∧
    Slope.from_str Slope.get_command_string = .ok () ∧
    Status.from_str Status.get_command_string = .ok () ∧
    CompensatedTemperatureValue.from_str CompensatedTemperatureValue.get_command_string =
      .ok () := by
  refine ⟨fun r => ?_, ?_⟩
  · cases r <;> decide
  · decide

/-- C5: the sensor-reading parser parses the payload as a float and
accepts exactly the values in `[0.0, 14.0]`: an in-range parse yields the
reading, an out-of-range parse the invalid-reading error, and a
non-number the (distinct) response-parse error; in particular `14.0` is
accepted, `14.1` and `-0.5` are invalid readings, and `10.5.5` is a parse
error. -/
theorem C5_sensor_reading :
    (∀ (s : Str) (v : Q), parseF64 s = some (.finite v) →
      SensorReading.parse s =
        (if PROBE_LOWER_LIMIT.le v && v.le PROBE_UPPER_LIMIT then .ok ⟨.finite v⟩
         else .error .InvalidReading)) ∧
    (∀ s : Str, parseF64 s = none → SensorReading.parse s = .error .ResponseParse) ∧
    SensorReading.parse (str "14.0") = .ok ⟨.finite (Q.ofNat 14)⟩ ∧
    SensorReading.parse (str "14.1") = .error .InvalidReading ∧
    SensorReading.parse (str "-0.5") = .error .InvalidReading ∧
    SensorReading.parse (str "10.5.5") = .error .ResponseParse := by
  refine ⟨fun s v h => ?_, fun s h => ?_, by decide, by decide, by decide, by decide⟩
  · unfold SensorReading.parse
    rw [h]
    rfl
  · unfold SensorReading.parse
    rw [h]

/-- C5 witness: the characterisation applied at the concrete payloads
`14.0` (in range) and `10.5.5` (malformed). -/
theorem C5_witness :
    SensorReading.parse (str "14.0") =
      (if PROBE_LOWER_LIMIT.le (Q.ofNat 14) && (Q.ofNat 14).le PROBE_UPPER_LIMIT
       then .ok ⟨.finite (Q.ofNat 14)⟩ else .error .InvalidReading) ∧
    SensorReading.parse (str "10.5.5") = .error .ResponseParse :=
  ⟨C5_sensor_reading.1 (str "14.0") (Q.ofNat 14) (by decide),
   C5_sensor_reading.2.1 (str "10.5.5") (by decide)⟩

/-- C1, counterexample: constructing an `Import` command with a 15
character string succeeds and yields a wire string — there is no
construction-time length check, contradicting the claim that building an
`Import` with an out-of-range string fails. -/
theorem C1_counterexample :
    (str "ABCDEFGHIJKLMNO").length = 15 ∧
    Import.get_command_string (str "ABCDEFGHIJKLMNO") = str "IMPORT,ABCDEFGHIJKLMNO" := by
  decide

/-- C1, amended: only `Import::from_str` enforces the 1–12 length bound —
parsing `IMPORT,<s>` fails for every `s` of length 0 or ≥ 13 — while the
`Import` constructor itself performs no validation: any string, of any
length, is spliced into the wire string as-is. -/
theorem C1_amended :
    (∀ s : Str, s.length = 0 ∨ 13 ≤ s.length →
      Import.from_str (str "IMPORT," ++ s) = some (.error .CommandParse)) ∧
    (∀ s : Str, Import.get_command_string s = str "IMPORT," ++ s) := by
  refine ⟨fun s hs => ?_, fun s => rfl⟩
  unfold Import.from_str
  rw [upper_append]
  have hup : upper (str "IMPORT,") = str "IMPORT," := by decide
  rw [hup]
  unfold Import.fromUpper
  have hpfx : (str "IMPORT,").isPrefixOf (str "IMPORT," ++ upper s) = true :=
    List.isPrefixOf_iff_prefix.mpr ⟨upper s, rfl⟩
  rw [if_pos hpfx]
  have hbd : byteDrop (str "IMPORT," ++ upper s) 7 = some (upper s) := by
    have h7 : (str "IMPORT,").length = 7 := by decide
    have hb := byteDrop_append (p := str "IMPORT,") (upper s) (by decide)
    rwa [h7] at hb
  rw [hbd]
  cases hsp : splitComma (upper s) with
  | nil => exact absurd hsp (splitComma_ne_nil _)
  | cons f fs =>
    cases fs with
    | nil =>
      have hf : upper s = f := splitComma_singleton hsp
      have hlen : f.length = s.length := by rw [← hf, upper_length]
      have hguard : ¬(0 < f.length ∧ f.length < 13) := by
        rw [hlen]; rcases hs with h | h <;> omega
      simp [hsp, hguard]
    | cons g gs =>
      by_cases hguard : 0 < f.length ∧ f.length < 13 <;> simp [hsp, hguard]

/-- C1 witness: the amended bound applied at the empty string and at a
15-character string. -/
theorem C1_witness :
    Import.from_str (str "IMPORT," ++ str "") = some (.error .CommandParse) ∧
    Import.from_str (str "IMPORT," ++ str "ABCDEFGHIJKLMNO") = some (.error .CommandParse) :=
  ⟨C1_amended.1 (str "") (Or.inl (by decide)),
   C1_amended.1 (str "ABCDEFGHIJKLMNO") (Or.inr (by decide))⟩

/-- C7: command parsing from text is case-insensitive — every variant's
`from_str` gives the same result on `s` and on the uppercased `s`
(each parser begins by uppercasing, and uppercasing is idempotent); in
particular `baud,300` and `BAUD,300` parse to the same `Baud` command. -/
theorem C7_case_insensitive :
    (∀ s : Str, Baud.from_str (upper s) = Baud.from_str s) ∧
    (∀ s : Str, CalibrationMid.from_str (upper s) = CalibrationMid.from_str s) ∧
    (∀ s : Str, CalibrationLow.from_str (upper s) = CalibrationLow.from_str s) ∧
    (∀ s : Str, CalibrationHigh.from_str (upper s) = CalibrationHigh.from_str s) ∧
    (∀ s : Str, CalibrationClear.from_str (upper s) = CalibrationClear.from_str s) ∧
    (∀ s : Str, CalibrationState.from_str (upper s) = CalibrationState.from_str s) ∧
    (∀ s : Str, Export.from_str (upper s) = Export.from_str s) ∧
    (∀ s : Str, ExportInfo.from_str (upper s) = ExportInfo.from_str s) ∧
    (∀ s : Str, Import.from_str (upper s) = Import.from_str s) ∧
    (∀ s : Str, Factory.from_str (upper s) = Factory.from_str s) ∧
    (∀ s : Str, Find.from_str (upper s) = Find.from_str s) ∧
    (∀ s : Str, DeviceAddress.from_str (upper s) = DeviceAddress.from_str s) ∧
    (∀ s : Str, DeviceInformation.from_str (upper s) = DeviceInformation.from_str s) ∧
    (∀ s : Str, LedOn.from_str (upper s) = LedOn.from_str s) ∧
    (∀ s : Str, LedOff.from_str (upper s) = LedOff.from_str s) ∧
    (∀ s : Str, LedState.from_str (upper s) = LedState.from_str s) ∧
    (∀ s : Str, ProtocolLockEnable.from_str (upper s) = ProtocolLockEnable.from_str s) ∧
    (∀ s : Str, ProtocolLockDisable.from_str (upper s) = ProtocolLockDisable.from_str s) ∧
    (∀ s : Str, ProtocolLockState.from_str (upper s) = ProtocolLockState.from_str s) ∧
    (∀ s : Str, Reading.from_str (upper s) = Reading.from_str s) ∧
    (∀ s : Str, Sleep.from_str (upper s) = Sleep.from_str s) ∧
    (∀ s : Str, Slope.from_str (upper s) = Slope.from_str s) ∧
    (∀ s : Str, Status.from_str (upper s) = Status.from_str s) ∧
    (∀ s : Str, TemperatureCompensation.from_str (upper s) =
      TemperatureCompensation.from_str s) ∧
    (∀ s : Str, CompensatedTemperatureValue.from_str (upper s) =
      CompensatedTemperatureValue.from_str s) ∧
    Baud.from_str (str "baud,300") = Baud.from_str (str "BAUD,300") ∧
    Baud.from_str (str "baud,300") = some (.ok .Bps300) :=
  ⟨fun s => congrArg Baud.fromUpper (upper_idem s),
   fun s => congrArg CalibrationMid.fromUpper (upper_idem s),
   fun s => congrArg CalibrationLow.fromUpper (upper_idem s),
   fun s => congrArg CalibrationHigh.fromUpper (upper_idem s),
   fun s => congrArg CalibrationClear.fromUpper (upper_idem s),
   fun s => congrArg CalibrationState.fromUpper (upper_idem s),
   fun s => congrArg Export.fromUpper (upper_idem s),
   fun s => congrArg ExportInfo.fromUpper (upper_idem s),
   fun s => congrArg Import.fromUpper (upper_idem s),
   fun s => congrArg Factory.fromUpper (upper_idem s),
   fun s => congrArg Find.fromUpper (upper_idem s),
   fun s => congrArg DeviceAddress.fromUpper (upper_idem s),
   fun s => congrArg DeviceInformation.fromUpper (upper_idem s),
   fun s => congrArg LedOn.fromUpper (upper_idem s),
   fun s => congrArg LedOff.fromUpper (upper_idem s),
   fun s => congrArg LedState.fromUpper (upper_idem s),
   fun s => congrArg ProtocolLockEnable.fromUpper (upper_idem s),
   fun s => congrArg ProtocolLockDisable.fromUpper (upper_idem s),
   fun s => congrArg ProtocolLockState.fromUpper (upper_idem s),
   fun s => congrArg Reading.fromUpper (upper_idem s),
   fun s => congrArg Sleep.fromUpper (upper_idem s),
   fun s => congrArg Slope.fromUpper (upper_idem s),
   fun s => congrArg Status.fromUpper (upper_idem s),
   fun s => congrArg TemperatureCompensation.fromUpper (upper_idem s),
   fun s => congrArg CompensatedTemperatureValue.fromUpper (upper_idem s),
   by decide, by decide⟩

/-- C10: every response parser and every command `from_str` is total —
for each of the fifteen functions whose source slices off a verified
prefix with `get(n..).unwrap()`, the result is `some` outcome (`Ok` or
`Err`) on every input: the byte index always lands on a character
boundary after a successful `starts_with` of an ASCII prefix, so the
panic branch (modelled by `none`) is unreachable.  The remaining parsers
are total by construction. -/
theorem C10_total_no_panic :
    (∀ s : Str, (CalibrationStatus.parse s).isSome = true) ∧
    (∀ s : Str, (ExportedInfo.parse s).isSome = true) ∧
    (∀ s : Str, (DeviceInfo.parse s).isSome = true) ∧
    (∀ s : Str, (LedStatus.parse s).isSome = true) ∧
    (∀ s : Str, (ProtocolLockStatus.parse s).isSome = true) ∧
    (∀ s : Str, (ProbeSlope.parse s).isSome = true) ∧
    (∀ s : Str, (DeviceStatus.parse s).isSome = true) ∧
    (∀ s : Str, (CompensationValue.parse s).isSome = true) ∧
    (∀ s : Str, (Baud.from_str s).isSome = true) ∧
    (∀ s : Str, (CalibrationMid.from_str s).isSome = true) ∧
    (∀ s : Str, (CalibrationLow.from_str s).isSome = true) ∧
    (∀ s : Str, (CalibrationHigh.from_str s).isSome = true) ∧
    (∀ s : Str, (Import.from_str s).isSome = true) ∧
    (∀ s : Str, (DeviceAddress.from_str s).isSome = true) ∧
    (∀ s : Str, (TemperatureCompensation.from_str s).isSome = true) := by
  refine ⟨fun s => ?_, fun s => ?_, fun s => ?_, fun s => ?_, fun s => ?_, fun s => ?_,
    fun s => ?_, fun s => ?_, fun s => ?_, fun s => ?_, fun s => ?_, fun s => ?_,
    fun s => ?_, fun s => ?_, fun s => ?_⟩
  · unfold CalibrationStatus.parse
    exact guard_isSome _ _ _ _ _ (by decide) (by decide)
  · unfold ExportedInfo.parse
    exact guard_isSome _ _ _ _ _ (by decide) (by decide)
  · unfold DeviceInfo.parse
    exact guard_isSome _ _ _ _ _ (by decide) (by decide)
  · unfold LedStatus.parse
    exact guard_isSome _ _ _ _ _ (by decide) (by decide)
  · unfold ProtocolLockStatus.parse
    exact guard_isSome _ _ _ _ _ (by decide) (by decide)
  · unfold ProbeSlope.parse
    exact guard_isSome _ _ _ _ _ (by decide) (by decide)
  · unfold DeviceStatus.parse
    exact guard_isSome _ _ _ _ _ (by decide) (by decide)
  · unfold CompensationValue.parse
    exact guard_isSome _ _ _ _ _ (by decide) (by decide)
  · unfold Baud.from_str Baud.fromUpper
    exact guard_isSome _ _ _ _ _ (by decide) (by decide)
  · unfold CalibrationMid.from_str CalibrationMid.fromUpper
    exact guard_isSome _ _ _ _ _ (by decide) (by decide)
  · unfold CalibrationLow.from_str CalibrationLow.fromUpper
    exact guard_isSome _ _ _ _ _ (by decide) (by decide)
  · unfold CalibrationHigh.from_str CalibrationHigh.fromUpper
    exact guard_isSome _ _ _ _ _ (by decide) (by decide)
  · unfold Import.from_str Import.fromUpper
    exact guard_isSome _ _ _ _ _ (by decide) (by decide)
  · unfold DeviceAddress.from_str DeviceAddress.fromUpper
    exact guard_isSome _ _ _ _ _ (by decide) (by decide)
  · unfold TemperatureCompensation.from_str TemperatureCompensation.fromUpper
    exact guard_isSome _ _ _ _ _ (by decide) (by decide)

/-- The digit match of `CalibrationStatus::parse` only accepts the four
literal fields `0`–`3`. -/
theorem digitOf_eq_some {f : Str} {c : CalibrationStatus}
    (h : CalibrationStatus.digitOf f = some c) :
    f = str "0" ∨ f = str "1" ∨ f = str "2" ∨ f = str "3" := by
  unfold CalibrationStatus.digitOf at h
  split_ifs at h with h3 h2 h1 h0
  · exact Or.inr (Or.inr (Or.inr h3))
  · exact Or.inr (Or.inr (Or.inl h2))
  · exact Or.inr (Or.inl h1)
  · exact Or.inl h0

/-- C8: the calibration-status parser accepts exactly the four payloads
`?CAL,0` … `?CAL,3` (mapping 0 to not-calibrated and 1/2/3 to one-, two-
and three-point) and returns the response-parse error on every other
input — wrong digit, non-digit field, missing prefix, or trailing
field. -/
theorem C8_calibration_status :
    ∀ s : Str, CalibrationStatus.parse s =
      (if s = str "?CAL,0" then some (.ok .NotCalibrated)
       else if s = str "?CAL,1" then some (.ok .OnePoint)
       else if s = str "?CAL,2" then some (.ok .TwoPoint)
       else if s = str "?CAL,3" then some (.ok .ThreePoint)
       else some (.error .ResponseParse)) := by
  intro s
  by_cases hp : (str "?CAL,").isPrefixOf s
  · obtain ⟨t, rfl⟩ := exists_append_of_isPrefixOf hp
    have hbd : byteDrop (str "?CAL," ++ t) 5 = some t := by
      have h5 : (str "?CAL,").length = 5 := by decide
      have hb := byteDrop_append (p := str "?CAL,") t (by decide)
      rwa [h5] at hb
    unfold CalibrationStatus.parse
    rw [if_pos hp, hbd]
    have l0 : str "?CAL,0" = str "?CAL," ++ str "0" := by decide
    have l1 : str "?CAL,1" = str "?CAL," ++ str "1" := by decide
    have l2 : str "?CAL,2" = str "?CAL," ++ str "2" := by decide
    have l3 : str "?CAL,3" = str "?CAL," ++ str "3" := by decide
    rw [l0, l1, l2, l3]
    simp only [List.append_right_inj]
    by_cases h0 : t = str "0"
    · subst h0; decide
    by_cases h1 : t = str "1"
    · subst h1; decide
    by_cases h2 : t = str "2"
    · subst h2; decide
    by_cases h3 : t = str "3"
    · subst h3; decide
    rw [if_neg h0, if_neg h1, if_neg h2, if_neg h3]
    cases hsp : splitComma t with
    | nil => exact absurd hsp (splitComma_ne_nil t)
    | cons f fs =>
      cases hd : CalibrationStatus.digitOf f with
      | none => simp [hd]
      | some c =>
        cases fs with
        | nil =>
          have ht : t = f := splitComma_singleton hsp
          rcases digitOf_eq_some hd with hf | hf | hf | hf
          · exact absurd (ht.trans hf) h0
          · exact absurd (ht.trans hf) h1
          · exact absurd (ht.trans hf) h2
          · exact absurd (ht.trans hf) h3
        | cons g gs => simp [hd]
  · unfold CalibrationStatus.parse
    rw [if_neg hp]
    have h0 : s ≠ str "?CAL,0" := by intro h; subst h; exact hp (by decide)
    have h1 : s ≠ str "?CAL,1" := by intro h; subst h; exact hp (by decide)
    have h2 : s ≠ str "?CAL,2" := by intro h; subst h; exact hp (by decide)
    have h3 : s ≠ str "?CAL,3" := by intro h; subst h; exact hp (by decide)
    rw [if_neg h0, if_neg h1, if_neg h2, if_neg h3]

/-- C2, counterexample: after a successful read, `run` returns the same
`Ok(())` to the caller for status byte 2 (device error), 254 (pending),
255 (no data) and 7 (any other value) alike — the three states are not
surfaced as distinct outcomes, only logged to the console. -/
theorem C2_counterexample :
    (CommandOptions.run (PhCommand.build .Status) true true
      (some (2 :: List.replicate 400 0)) none).result = .ok () ∧
    (CommandOptions.run (PhCommand.build .Status) true true
      (some (254 :: List.replicate 400 0)) none).result = .ok () ∧
    (CommandOptions.run (PhCommand.build .Status) true true
      (some (255 :: List.replicate 400 0)) none).result = .ok () ∧
    (CommandOptions.run (PhCommand.build .Status) true true
      (some (7 :: List.replicate 400 0)) none).result = .ok () := by
  decide

/-- C2, amended: when a response is expected and the read succeeds with
any leading status byte other than `1`, `run` distinguishes the status
only in its console output — it prints "Error" for 2, "Pending" for 254,
"No data expected." for 255 and "NO RESPONSE" for every other value —
and always returns `Ok(())` to the caller. -/
theorem C2_amended :
    ∀ (opts : CommandOptions) (w2 : Bool) (r2 : Option (List Nat)) (buf : List Nat)
      (resp : CommandResponse), opts.response = some resp → buf.headD 0 ≠ 1 →
      (CommandOptions.run opts true w2 (some buf) r2).result = .ok () ∧
      (CommandOptions.run opts true w2 (some buf) r2).printed =
        [str "COMMAND: " ++ opts.command, statusMsg (buf.headD 0), str ""] := by
  intro opts w2 r2 buf resp hresp hst
  rw [run_status_not1 opts true w2 r2 buf resp (Or.inl rfl) hresp hst]
  exact ⟨rfl, rfl⟩

/-- C2 witness: the amended statement applied to the status command with
a device-error status byte. -/
theorem C2_witness :
    (CommandOptions.run (PhCommand.build .Status) true true
      (some (2 :: List.replicate 400 0)) none).result = .ok () ∧
    (CommandOptions.run (PhCommand.build .Status) true true
      (some (2 :: List.replicate 400 0)) none).printed =
      [str "COMMAND: " ++ (PhCommand.build .Status).command,
       statusMsg ((2 :: List.replicate 400 0).headD 0), str ""] :=
  C2_amended (PhCommand.build .Status) true none (2 :: List.replicate 400 0)
    .Status rfl (by decide)

/-- C9: each of the write and the read is retried at most once, and a
successful first attempt is never retried.  A successful first write
yields exactly one write, and a successful first read exactly one read;
a failed first write is followed by a 300 ms sleep and exactly one
retried write, and if that also fails `run` stops with the write error
having performed no read and no other action.  Likewise a failed first
read is followed by a 300 ms sleep and exactly one retried read, and a
second failure surfaces the read error with no further action — no
reconnection or bus re-initialisation exists in the trace. -/
theorem C9_single_retry :
    ∀ (opts : CommandOptions) (w1 w2 : Bool) (r1 r2 : Option (List Nat)),
      ((CommandOptions.run opts w1 w2 r1 r2).events.count .write ≤ 2) ∧
      ((CommandOptions.run opts w1 w2 r1 r2).events.count .read ≤ 2) ∧
      (w1 = true → (CommandOptions.run opts w1 w2 r1 r2).events.count .write = 1) ∧
      ((w1 = true ∨ w2 = true) → opts.response.isSome = true → r1.isSome = true →
        (CommandOptions.run opts w1 w2 r1 r2).events.count .read = 1) ∧
      (w1 = false → (CommandOptions.run opts w1 w2 r1 r2).events.take 3 =
        [.write, .sleepMs 300, .write]) ∧
      (w1 = false → w2 = false →
        CommandOptions.run opts w1 w2 r1 r2 =
          ⟨.error .commandNotSent, [.write, .sleepMs 300, .write],
           [str "COMMAND: " ++ opts.command]⟩) ∧
      (∀ resp, opts.response = some resp → (w1 = true ∨ w2 = true) → r1 = none →
        ∃ pre, (CommandOptions.run opts w1 w2 r1 r2).events =
          pre ++ [.read, .sleepMs 300, .read]) ∧
      (∀ resp, opts.response = some resp → (w1 = true ∨ w2 = true) →
        CommandOptions.run opts w1 w2 none none =
          ⟨.error .readFromDevice,
           writeTrace w1 ++ delayTrace opts.delay ++ [.read, .sleepMs 300, .read],
           [str "COMMAND: " ++ opts.command]⟩) := by
  intro opts w1 w2 r1 r2
  refine ⟨?_, ?_, ?_, ?_, ?_, ?_, ?_, ?_⟩
  · by_cases hw : w1 = false ∧ w2 = false
    · obtain ⟨hw1, hw2⟩ := hw
      subst hw1; subst hw2
      rw [run_write_fail]
      show List.count Event.write [Event.write, Event.sleepMs 300, Event.write] ≤ 2
      decide
    · have hw' : w1 = true ∨ w2 = true := by
        cases w1 <;> cases w2 <;> simp_all
      rw [run_events opts w1 w2 r1 r2 hw']
      simp only [List.count_append, count_writeTrace_write, count_delayTrace_write,
        count_readTrace_write]
      cases w1 <;> simp
  · by_cases hw : w1 = false ∧ w2 = false
    · obtain ⟨hw1, hw2⟩ := hw
      subst hw1; subst hw2
      rw [run_write_fail]
      show List.count Event.read [Event.write, Event.sleepMs 300, Event.write] ≤ 2
      decide
    · have hw' : w1 = true ∨ w2 = true := by
        cases w1 <;> cases w2 <;> simp_all
      rw [run_events opts w1 w2 r1 r2 hw']
      simp only [List.count_append, count_writeTrace_read, count_delayTrace_read,
        count_readTrace_read]
      cases opts.response <;> cases r1 <;> simp
  · intro hw1
    subst hw1
    rw [run_events opts true w2 r1 r2 (Or.inl rfl)]
    simp only [List.count_append, count_writeTrace_write, count_delayTrace_write,
      count_readTrace_write]
    simp
  · intro hw' hresp hr1
    rw [run_events opts w1 w2 r1 r2 hw']
    simp only [List.count_append, count_writeTrace_read, count_delayTrace_read,
      count_readTrace_read]
    simp [hresp, hr1]
  · intro hw1
    subst hw1
    by_cases hw2 : w2 = false
    · subst hw2
      rw [run_write_fail]
      show List.take 3 [Event.write, Event.sleepMs 300, Event.write] =
        [Event.write, Event.sleepMs 300, Event.write]
      rfl
    · have hw' : (false : Bool) = true ∨ w2 = true := by
        cases w2 <;> simp_all
      rw [run_events opts false w2 r1 r2 hw']
      have hwt : writeTrace false = [.write, .sleepMs 300, .write] := rfl
      rw [hwt, List.append_assoc]
      rw [show (3 : Nat) = ([Event.write, Event.sleepMs 300, Event.write]).length from rfl]
      exact List.take_left _ _
  · intro hw1 hw2
    subst hw1; subst hw2
    exact run_write_fail opts r1 r2
  · intro resp hresp hw' hr1
    subst hr1
    rw [run_events opts w1 w2 none r2 hw']
    refine ⟨writeTrace w1 ++ delayTrace opts.delay, ?_⟩
    rw [show readTrace opts.response none = [.read, .sleepMs 300, .read] from by
      rw [hresp]; rfl]
  · intro resp hresp hw'
    exact run_read_fail opts w1 w2 resp hw' hresp

/-- C9 witness: the retry bounds applied concretely — a doubly-failed
write aborts with the write error after write/sleep/write, a successful
first read of the status command is performed exactly once, and a
doubly-failed read surfaces the read error. -/
theorem C9_witness :
    (CommandOptions.run (PhCommand.build .Status) false false none none =
      ⟨.error .commandNotSent, [.write, .sleepMs 300, .write],
       [str "COMMAND: " ++ (PhCommand.build .Status).command]⟩) ∧
    ((CommandOptions.run (PhCommand.build .Status) true true
        (some (1 :: List.replicate 400 0)) none).events.count .read = 1) ∧
    (CommandOptions.run (PhCommand.build .Status) true true none none =
      ⟨.error .readFromDevice,
       writeTrace true ++ delayTrace (PhCommand.build .Status).delay ++
         [.read, .sleepMs 300, .read],
       [str "COMMAND: " ++ (PhCommand.build .Status).command]⟩) :=
  ⟨(C9_single_retry (PhCommand.build .Status) false false none none).2.2.2.2.2.1 rfl rfl,
   (C9_single_retry (PhCommand.build .Status) true true
      (some (1 :: List.replicate 400 0)) none).2.2.2.1 (Or.inl rfl) rfl rfl,
   (C9_single_retry (PhCommand.build .Status) true true none none).2.2.2.2.2.2.2
     .Status rfl (Or.inl rfl)⟩

end EzoPh
